import Mathlib

/-!
Verification of the change-buffer (insert buffer) core of the `server`
repository.  The shallow embedding below follows the two source files:
`src/storage/innobase/include/ibuf0ibuf.h` (declarations, the inline
definition of `ibuf_bitmap_page`, the `ibuf_t` control block and the
free-bits rule comment) and `src/unnamed/part_000` (the inline file
`ibuf0ibuf.ic` with `ibuf_mtr_start`, `ibuf_mtr_commit` and
`ibuf_inside`).  Collaborator machinery that the repository only
declares (the mini-transaction object internals, the bitmap update
implementations, the merge engine) is modelled from the spec, as marked
on each definition.
-/

namespace Ibuf

/-- Page identifier: (tablespace id, page number), as used throughout
`ibuf0ibuf.h` (`page_id_t`). -/
structure page_id_t where
  space : Nat
  page_no : Nat
deriving DecidableEq, Repr

/-- Modelled from the spec: the fixed bitmap-page offset
`FSP_IBUF_BITMAP_OFFSET` comes from `fsp0fsp.h`, which is not among the
given sources; the spec calls it "the fixed bitmap-page offset within
that modulus".  Its concrete value is irrelevant to the claims. -/
def FSP_IBUF_BITMAP_OFFSET : Nat := 1

/-- Embedding of `ibuf_bitmap_page` (ibuf0ibuf.h lines 158-163):
`size = zip_size ? zip_size : srv_page_size;
return (page_id.page_no() & (size - 1)) == FSP_IBUF_BITMAP_OFFSET;`.
The global `srv_page_size` is passed explicitly. -/
def ibuf_bitmap_page (page_id : page_id_t) (zip_size : Nat)
    (srv_page_size : Nat) : Bool :=
  let size := if zip_size = 0 then srv_page_size else zip_size
  (page_id.page_no &&& (size - 1)) == FSP_IBUF_BITMAP_OFFSET

/-- Redo-log modes of a mini-transaction (collaborator enum; only the
default mode and `MTR_LOG_NO_REDO` are relevant to this core). -/
inductive mtr_log_mode_t where
  | MTR_LOG_ALL
  | MTR_LOG_NO_REDO
deriving DecidableEq, Repr

/-- Modelled from the spec: the mini-transaction object `mtr_t` is an
external collaborator ("a transactional scope abstraction
(begin/commit/redo-mode-toggle)") whose internals are not in the given
sources.  We keep the fields this core touches: whether the scope is
active, its redo-log mode, and the Re-entrancy Marker
(`m_inside_ibuf`). -/
structure mtr_t where
  active : Bool
  log_mode : mtr_log_mode_t
  inside_ibuf : Bool
deriving DecidableEq, Repr

/-- Modelled from the spec: `mtr_start` begins an ordinary transactional
scope; the marker is initially clear and the log mode is the default. -/
def mtr_start (_m : mtr_t) : mtr_t :=
  { active := true, log_mode := .MTR_LOG_ALL, inside_ibuf := false }

/-- Modelled from the spec: `mtr->enter_ibuf()` sets the Re-entrancy
Marker on the scope. -/
def mtr_enter_ibuf (m : mtr_t) : mtr_t :=
  { m with inside_ibuf := true }

/-- Modelled from the spec: `mtr->exit_ibuf()` clears the Re-entrancy
Marker. -/
def mtr_exit_ibuf (m : mtr_t) : mtr_t :=
  { m with inside_ibuf := false }

/-- Modelled from the spec: `mtr_set_log_mode` is the collaborator's
redo-mode toggle. -/
def mtr_set_log_mode (m : mtr_t) (mode : mtr_log_mode_t) : mtr_t :=
  { m with log_mode := mode }

/-- Modelled from the spec: `mtr_commit` commits the underlying scope
normally. -/
def mtr_commit (m : mtr_t) : mtr_t :=
  { m with active := false }

/-- Engine read-only flags consulted by `ibuf_mtr_start`
(`high_level_read_only`, `srv_read_only_mode`); globals in the source,
passed explicitly here. -/
structure srv_flags_t where
  high_level_read_only : Bool
  srv_read_only_mode : Bool
deriving DecidableEq, Repr

/-- Embedding of `ibuf_mtr_start` (part_000 lines 29-42):
`mtr_start(mtr); mtr->enter_ibuf();
if (high_level_read_only || srv_read_only_mode)
  mtr_set_log_mode(mtr, MTR_LOG_NO_REDO);`. -/
def ibuf_mtr_start (f : srv_flags_t) (m : mtr_t) : mtr_t :=
  let m1 := mtr_start m
  let m2 := mtr_enter_ibuf m1
  if f.high_level_read_only || f.srv_read_only_mode then
    mtr_set_log_mode m2 .MTR_LOG_NO_REDO
  else
    m2

/-- Embedding of `ibuf_mtr_commit` (part_000 lines 45-55):
`ut_ad(mtr->is_inside_ibuf()); ut_d(mtr->exit_ibuf()); mtr_commit(mtr);`.
We embed the debug-build semantics, in which the `ut_ad` contract check
and the `ut_d`-guarded clearing of the marker are both active; the
contract (marker set on entry) appears as a hypothesis on the theorems
about this function. -/
def ibuf_mtr_commit (m : mtr_t) : mtr_t :=
  mtr_commit (mtr_exit_ibuf m)

/-- Embedding of `ibuf_inside` (part_000 lines 64-71):
`return(mtr->is_inside_ibuf());`. -/
def ibuf_inside (m : mtr_t) : Bool :=
  m.inside_ibuf

/-- Modelled from the spec: the actions a scope may perform between
`ibuf_mtr_start` and `ibuf_mtr_commit` — toggling the redo mode and
ordinary body work on pages, neither of which touches the Re-entrancy
Marker ("set on scope entry for buffer-internal work, asserted clear on
scope exit"). -/
inductive mtr_op_t where
  | set_log_mode (mode : mtr_log_mode_t)
  | body_work
deriving DecidableEq, Repr

/-- Effect of an in-scope action on the mini-transaction object. -/
def mtr_apply (m : mtr_t) : mtr_op_t → mtr_t
  | .set_log_mode mode => mtr_set_log_mode m mode
  | .body_work => m

/-- Operation kinds buffered in the insert buffer, from the `ibuf_op_t`
enum of ibuf0ibuf.h (on-disk values fixed: Insert=0, DeleteMark=1,
Delete=2). -/
inductive ibuf_op_t where
  | IBUF_OP_INSERT
  | IBUF_OP_DELETE_MARK
  | IBUF_OP_DELETE
deriving DecidableEq, Repr

/-- Modelled from the spec: a buffered record — page identifier,
secondary-index key image (abstracted to a natural number), operation
kind, the small ordering counter, and the byte size of the buffered
data (used by contraction's byte estimate).  The record codec and index
layout are not among the given sources. -/
structure ibuf_rec_t where
  page : page_id_t
  key : Nat
  op : ibuf_op_t
  counter : Nat
  data_size : Nat
deriving DecidableEq, Repr

/-- Modelled from the spec: a resident page's logical contents for the
purposes of merging — the keys present with their delete-mark flags. -/
abbrev page_contents_t : Type := List (Nat × Bool)

/-- Modelled from the spec: applying one buffered operation kind to a
page's contents (insert the key unmarked, delete-mark it, or purge
it). -/
def ibuf_apply_op (pg : page_contents_t) (op : ibuf_op_t) (k : Nat) :
    page_contents_t :=
  match op with
  | .IBUF_OP_INSERT => pg ++ [(k, false)]
  | .IBUF_OP_DELETE_MARK =>
      pg.map (fun e => if e.1 = k then (e.1, true) else e)
  | .IBUF_OP_DELETE => pg.filter (fun e => decide (¬ e.1 = k))

/-- Application of a whole buffered record to page contents. -/
def ibuf_apply_rec (pg : page_contents_t) (r : ibuf_rec_t) :
    page_contents_t :=
  ibuf_apply_op pg r.op r.key

/-- Comparison on the ordering counter, reflecting original buffering
order. -/
def ibuf_counter_le (a b : ibuf_rec_t) : Bool :=
  decide (a.counter ≤ b.counter)

/-- Modelled from the spec: the buffered entries the buffer's own index
yields for one page — all records keyed by `pid`, "ordered by the
record's ordering counter, which reflects original buffering order". -/
def ibuf_entries_for_page (buf : List ibuf_rec_t) (pid : page_id_t) :
    List ibuf_rec_t :=
  (buf.filter (fun r => decide (r.page = pid))).mergeSort ibuf_counter_le

/-- Modelled from the spec: `ibuf_merge_or_delete_for_page`
(ibuf0ibuf.h lines 214-226; implementation not among the given
sources).  With a resident X-latched page it applies every buffered
entry for `page_id` in counter order and deletes the entries from the
buffer's index; with no page it just discards the entries. -/
def ibuf_merge_or_delete_for_page (block : Option page_contents_t)
    (pid : page_id_t) (buf : List ibuf_rec_t) :
    Option page_contents_t × List ibuf_rec_t :=
  match block with
  | some pg =>
      (some ((ibuf_entries_for_page buf pid).foldl ibuf_apply_rec pg),
        buf.filter (fun r => decide (¬ r.page = pid)))
  | none => (none, buf.filter (fun r => decide (¬ r.page = pid)))

/-- Modelled from the spec: the durable state the bitmap protocol
guards — per tracked page its true free space and the stored free-space
code of its bitmap entry, both in bytes (the 2-bit on-disk code is an
encoding of the promised bytes; we keep the promise itself). -/
structure bitmap_state_t where
  free_space : page_id_t → Nat
  free_bits : page_id_t → Nat

/-- Modelled from the spec: one durable write inside a committed
mini-transaction scope — a bitmap-entry update or a page change that
alters true free space. -/
inductive bitmap_write_t where
  | set_bits (p : page_id_t) (c : Nat)
  | set_free (p : page_id_t) (f : Nat)
deriving DecidableEq, Repr

/-- Page targeted by a durable write. -/
def bitmap_write_t.target : bitmap_write_t → page_id_t
  | .set_bits p _ => p
  | .set_free p _ => p

/-- Effect of one durable write on the bitmap state. -/
def apply_bitmap_write (s : bitmap_state_t) :
    bitmap_write_t → bitmap_state_t
  | .set_bits p c =>
      { s with free_bits := fun q => if q = p then c else s.free_bits q }
  | .set_free p f =>
      { s with free_space := fun q => if q = p then f else s.free_space q }

/-- Atomic effect of committing one scope (its writes in order). -/
def apply_mtr_scope (s : bitmap_state_t) (S : List bitmap_write_t) :
    bitmap_state_t :=
  S.foldl apply_bitmap_write s

/-- Pages a scope touches. -/
def scope_targets (S : List bitmap_write_t) : List page_id_t :=
  S.map bitmap_write_t.target

/-- Modelled from the spec: the free-bits rule of ibuf0ibuf.h lines
75-84.  A committed scope is legal iff, for each page it touches,
either the code it leaves behind does not exceed the free space it
leaves behind (codes may be raised only in the very same committed
scope that created the space, as `ibuf_update_free_bits_for_two_pages_low`
does), or it leaves the page's free space untouched and only lowers the
code (it is safe to decrement or reset the bits in a scope committed
before the scope that affects the free space, as `ibuf_reset_free_bits`
does). -/
def legal_scope (s : bitmap_state_t) (S : List bitmap_write_t) : Prop :=
  ∀ p ∈ scope_targets S,
    (apply_mtr_scope s S).free_bits p ≤ (apply_mtr_scope s S).free_space p ∨
      ((apply_mtr_scope s S).free_bits p ≤ s.free_bits p ∧
        (apply_mtr_scope s S).free_space p = s.free_space p)

/-- Chain of committed scopes, each legal in the durable state left by
its predecessors. -/
def legal_trace (s : bitmap_state_t) : List (List bitmap_write_t) → Prop
  | [] => True
  | S :: tr => legal_scope s S ∧ legal_trace (apply_mtr_scope s S) tr

/-- Durable state after a sequence of committed scopes. -/
def apply_trace (s : bitmap_state_t)
    (tr : List (List bitmap_write_t)) : bitmap_state_t :=
  tr.foldl apply_mtr_scope s

/-- Central invariant of the core: the stored free-space code never
exceeds the page's true free space. -/
def bitmap_inv (s : bitmap_state_t) : Prop :=
  ∀ p, s.free_bits p ≤ s.free_space p

/-- Modelled from the spec: `ibuf_reset_free_bits_low` (ibuf0ibuf.h
lines 123-126) lowers the stored code for the page to the minimum
value, inside the caller-supplied scope. -/
def ibuf_reset_free_bits_low (p : page_id_t) : List bitmap_write_t :=
  [.set_bits p 0]

/-- Modelled from the spec: `ibuf_update_free_bits_for_two_pages_low`
(ibuf0ibuf.h lines 127-139) updates the free bits for the two pages to
reflect the present state, inside the very scope that updated the
pages; here the scope both establishes each page's new free space and
stores the matching code. -/
def ibuf_update_free_bits_for_two_pages_low (p1 p2 : page_id_t)
    (f1 f2 : Nat) : List bitmap_write_t :=
  [.set_free p1 f1, .set_bits p1 f1, .set_free p2 f2, .set_bits p2 f2]

/-- Embedding of the `ibuf_t` control block (ibuf0ibuf.h lines 46-61);
the `dict_index_t` handle is omitted as an external collaborator. -/
structure ibuf_t where
  size : Nat
  seg_size : Nat
  empty : Bool
  free_list_len : Nat
  height : Nat
deriving DecidableEq, Repr

/-- Modelled from the spec: the run-time state relevant to the `empty`
field's invariant — the control block, the contents of the buffer's own
index, and whether this thread holds the latch on the root page of the
buffer's index. -/
structure ibuf_core_state_t where
  ibuf : ibuf_t
  entries : List ibuf_rec_t
  root_latched : Bool
deriving DecidableEq, Repr

/-- Modelled from the spec: the operations of the core that touch the
buffer's own index or its root-page latch. -/
inductive core_op_t where
  | latch_root
  | unlatch_root
  | insert_entry (r : ibuf_rec_t)
  | merge_page (pid : page_id_t)
  | discard_space (space : Nat)
deriving DecidableEq, Repr

/-- Modelled from the spec: effect of one core operation.  Operations
that change the set of buffered entries (and hence may change
emptiness) require the root-page latch and refresh `empty` under it;
without the latch they do not proceed. -/
def core_step (s : ibuf_core_state_t) : core_op_t → ibuf_core_state_t
  | .latch_root => { s with root_latched := true }
  | .unlatch_root => { s with root_latched := false }
  | .insert_entry r =>
      if s.root_latched then
        { s with
          entries := r :: s.entries,
          ibuf := { s.ibuf with empty := (r :: s.entries).isEmpty } }
      else s
  | .merge_page pid =>
      if s.root_latched then
        { s with
          entries := s.entries.filter (fun e => decide (¬ e.page = pid)),
          ibuf := { s.ibuf with
            empty :=
              (s.entries.filter (fun e => decide (¬ e.page = pid))).isEmpty } }
      else s
  | .discard_space sp =>
      if s.root_latched then
        { s with
          entries := s.entries.filter (fun e => decide (¬ e.page.space = sp)),
          ibuf := { s.ibuf with
            empty :=
              (s.entries.filter
                (fun e => decide (¬ e.page.space = sp))).isEmpty } }
      else s

/-- Correspondence stated in ibuf0ibuf.h lines 52-57: `empty` is true if
and only if the insert buffer tree is empty. -/
def ibuf_empty_inv (s : ibuf_core_state_t) : Prop :=
  s.ibuf.empty = s.entries.isEmpty

/-- Byte size of one buffered record's data. -/
def ibuf_rec_size (r : ibuf_rec_t) : Nat :=
  r.data_size

/-- Modelled from the spec: the entries `ibuf_contract` merges — all
buffered entries for the page it picks (the first page with buffered
entries). -/
def ibuf_contract_merged (s : ibuf_core_state_t) : List ibuf_rec_t :=
  match s.entries with
  | [] => []
  | r :: _ => s.entries.filter (fun e => decide (e.page = r.page))

/-- Modelled from the spec: `ibuf_contract` (ibuf0ibuf.h lines 233-237;
implementation not among the given sources).  Cheap `0` when
`ibuf.empty`; otherwise it picks a page with buffered entries, causes
it to be read (merging its entries through the same path as an ordinary
read) and returns a lower limit for the combined size in bytes of the
entries merged to the pages read. -/
def ibuf_contract (s : ibuf_core_state_t) : Nat × ibuf_core_state_t :=
  if s.ibuf.empty then (0, s)
  else
    match s.entries with
    | [] => (0, s)
    | r :: _ =>
        ((( s.entries.filter
              (fun e => decide (e.page = r.page))).map ibuf_rec_size).sum,
          { s with
            entries := s.entries.filter (fun e => decide (¬ e.page = r.page)),
            ibuf := { s.ibuf with
              empty :=
                (s.entries.filter
                  (fun e => decide (¬ e.page = r.page))).isEmpty } })

end Ibuf

namespace Ibuf

/-- Claim C5: for every page identifier and every physical page size that
is a power of two (when `zip_size` is 0 the default `srv_page_size` is
used), `ibuf_bitmap_page` returns true iff the page number modulo the
physical page size equals the fixed bitmap-page offset, i.e. iff the
address denotes a level-3 bitmap page; it is a pure Lean function, so it
performs no I/O. -/
theorem ibuf_bitmap_page_iff_mod (page_id : page_id_t)
    (zip_size srv_page_size : Nat) (k : Nat)
    (hpow : (if zip_size = 0 then srv_page_size else zip_size) = 2 ^ k) :
    ibuf_bitmap_page page_id zip_size srv_page_size = true ↔
      page_id.page_no % (if zip_size = 0 then srv_page_size else zip_size)
        = FSP_IBUF_BITMAP_OFFSET := by
  unfold ibuf_bitmap_page
  rw [hpow]
  simp [Nat.and_pow_two_sub_one_eq_mod]

/-- Witness for C5: the default 16KiB page size, page number 16385, which
is at offset 1 of its run, hence a bitmap page. -/
theorem ibuf_bitmap_page_iff_mod_witness :
    (if (0 : Nat) = 0 then (16384 : Nat) else 0) = 2 ^ 14 ∧
      (ibuf_bitmap_page ⟨0, 16385⟩ 0 16384 = true ↔
        (16385 : Nat) % (if (0 : Nat) = 0 then (16384 : Nat) else 0)
          = FSP_IBUF_BITMAP_OFFSET) :=
  ⟨by decide, ibuf_bitmap_page_iff_mod ⟨0, 16385⟩ 0 16384 14 (by decide)⟩

/-- Claim C6: `ibuf_mtr_start` begins an ordinary mini-transaction, sets
the Re-entrancy Marker on it, and — when the engine is in read-only or
high-level read-only mode — downgrades the scope's log mode so it
performs no redo logging. -/
theorem ibuf_mtr_start_read_only (f : srv_flags_t) (m : mtr_t)
    (h : f.high_level_read_only = true ∨ f.srv_read_only_mode = true) :
    (ibuf_mtr_start f m).active = true ∧
      (ibuf_mtr_start f m).inside_ibuf = true ∧
      (ibuf_mtr_start f m).log_mode = .MTR_LOG_NO_REDO := by
  have hb : (f.high_level_read_only || f.srv_read_only_mode) = true := by
    rcases h with h | h <;> simp [h]
  simp [ibuf_mtr_start, mtr_start, mtr_enter_ibuf, mtr_set_log_mode, hb]

/-- Witness for C6 at a concrete read-only flag setting. -/
theorem ibuf_mtr_start_read_only_witness :
    ((⟨false, true⟩ : srv_flags_t).high_level_read_only = true ∨
        (⟨false, true⟩ : srv_flags_t).srv_read_only_mode = true) ∧
      ((ibuf_mtr_start ⟨false, true⟩ ⟨false, .MTR_LOG_ALL, false⟩).active = true ∧
        (ibuf_mtr_start ⟨false, true⟩ ⟨false, .MTR_LOG_ALL, false⟩).inside_ibuf = true ∧
        (ibuf_mtr_start ⟨false, true⟩ ⟨false, .MTR_LOG_ALL, false⟩).log_mode = .MTR_LOG_NO_REDO) :=
  ⟨Or.inr rfl,
    ibuf_mtr_start_read_only ⟨false, true⟩ ⟨false, .MTR_LOG_ALL, false⟩ (Or.inr rfl)⟩

/-- Claim C10: when the engine is in neither read-only mode nor
high-level read-only mode, `ibuf_mtr_start` leaves the redo-log mode at
the default established by `mtr_start`, and its whole effect is exactly
starting the scope and setting the Re-entrancy Marker. -/
theorem ibuf_mtr_start_frame (f : srv_flags_t) (m : mtr_t)
    (h1 : f.high_level_read_only = false)
    (h2 : f.srv_read_only_mode = false) :
    ibuf_mtr_start f m = mtr_enter_ibuf (mtr_start m) ∧
      (ibuf_mtr_start f m).log_mode = (mtr_start m).log_mode := by
  simp [ibuf_mtr_start, mtr_start, mtr_enter_ibuf, h1, h2]

/-- Witness for C10 with both read-only flags off. -/
theorem ibuf_mtr_start_frame_witness :
    (⟨false, false⟩ : srv_flags_t).high_level_read_only = false ∧
      (⟨false, false⟩ : srv_flags_t).srv_read_only_mode = false ∧
      (ibuf_mtr_start ⟨false, false⟩ ⟨false, .MTR_LOG_ALL, false⟩ =
          mtr_enter_ibuf (mtr_start ⟨false, .MTR_LOG_ALL, false⟩) ∧
        (ibuf_mtr_start ⟨false, false⟩ ⟨false, .MTR_LOG_ALL, false⟩).log_mode =
          (mtr_start ⟨false, .MTR_LOG_ALL, false⟩).log_mode) :=
  ⟨rfl, rfl, ibuf_mtr_start_frame ⟨false, false⟩ ⟨false, .MTR_LOG_ALL, false⟩ rfl rfl⟩

/-- Claim C4: `ibuf_mtr_commit`, under its debug-checked contract that
the Re-entrancy Marker is set on entry, clears the marker and then
commits the underlying mini-transaction normally, so that after the
commit the marker is no longer set. -/
theorem ibuf_mtr_commit_clears_marker (m : mtr_t)
    (h : ibuf_inside m = true) :
    (ibuf_mtr_commit m).inside_ibuf = false ∧
      ibuf_mtr_commit m = mtr_commit (mtr_exit_ibuf m) ∧
      (ibuf_mtr_commit m).active = false := by
  refine ⟨?_, rfl, ?_⟩ <;>
    simp [ibuf_mtr_commit, mtr_commit, mtr_exit_ibuf]

/-- Witness for C4 on a live scope with the marker set. -/
theorem ibuf_mtr_commit_clears_marker_witness :
    ibuf_inside ⟨true, .MTR_LOG_ALL, true⟩ = true ∧
      ((ibuf_mtr_commit ⟨true, .MTR_LOG_ALL, true⟩).inside_ibuf = false ∧
        ibuf_mtr_commit ⟨true, .MTR_LOG_ALL, true⟩ =
          mtr_commit (mtr_exit_ibuf ⟨true, .MTR_LOG_ALL, true⟩) ∧
        (ibuf_mtr_commit ⟨true, .MTR_LOG_ALL, true⟩).active = false) :=
  ⟨rfl, ibuf_mtr_commit_clears_marker ⟨true, .MTR_LOG_ALL, true⟩ rfl⟩

/-- Marker preservation: no in-scope action touches the Re-entrancy
Marker. -/
theorem mtr_apply_preserves_marker (ops : List mtr_op_t) :
    ∀ m : mtr_t, m.inside_ibuf = true →
      (ops.foldl mtr_apply m).inside_ibuf = true := by
  induction ops with
  | nil => intro m hm; simpa using hm
  | cons op rest ih =>
      intro m hm
      have : (mtr_apply m op).inside_ibuf = true := by
        cases op <;> simpa [mtr_apply, mtr_set_log_mode] using hm
      simpa [List.foldl_cons] using ih (mtr_apply m op) this

/-- Claim C7: `ibuf_inside` is a pure query returning true iff the
scope's Re-entrancy Marker is set, and for any scope on which
`ibuf_mtr_start` has been called and `ibuf_mtr_commit` has not yet been
called — i.e. after any sequence of in-scope actions — it returns true
for the whole duration. -/
theorem ibuf_inside_iff_marker (f : srv_flags_t) (m : mtr_t)
    (ops : List mtr_op_t) :
    (ibuf_inside m = true ↔ m.inside_ibuf = true) ∧
      ibuf_inside (ops.foldl mtr_apply (ibuf_mtr_start f m)) = true := by
  constructor
  · exact Iff.rfl
  · have hstart : (ibuf_mtr_start f m).inside_ibuf = true := by
      by_cases hb : (f.high_level_read_only || f.srv_read_only_mode) = true <;>
        simp [ibuf_mtr_start, mtr_start, mtr_enter_ibuf, mtr_set_log_mode, hb]
    exact mtr_apply_preserves_marker ops (ibuf_mtr_start f m) hstart

/-- Filter algebra: removing a page's entries leaves nothing for that
page. -/
theorem filter_page_of_filter_not_page (buf : List ibuf_rec_t)
    (pid : page_id_t) :
    (buf.filter fun r => decide (¬ r.page = pid)).filter
        (fun r => decide (r.page = pid)) = [] := by
  induction buf with
  | nil => rfl
  | cons r rest ih =>
      by_cases h : r.page = pid <;>
        simp [List.filter_cons, h, ih]

/-- Filter algebra: removing a page's entries is idempotent. -/
theorem filter_not_page_idem (buf : List ibuf_rec_t) (pid : page_id_t) :
    (buf.filter fun r => decide (¬ r.page = pid)).filter
        (fun r => decide (¬ r.page = pid)) =
      buf.filter fun r => decide (¬ r.page = pid) := by
  induction buf with
  | nil => rfl
  | cons r rest ih =>
      by_cases h : r.page = pid <;>
        simp [List.filter_cons, h, ih]

/-- A buffer purged of a page's entries yields no entries for that
page. -/
theorem ibuf_entries_for_page_of_purged (buf : List ibuf_rec_t)
    (pid : page_id_t) :
    ibuf_entries_for_page
        (buf.filter fun r => decide (¬ r.page = pid)) pid = [] := by
  unfold ibuf_entries_for_page
  rw [filter_page_of_filter_not_page]
  simp [List.mergeSort_nil]

/-- The counter comparison is transitive. -/
theorem ibuf_counter_le_trans (a b c : ibuf_rec_t)
    (h1 : ibuf_counter_le a b) (h2 : ibuf_counter_le b c) :
    ibuf_counter_le a c := by
  simp only [ibuf_counter_le, decide_eq_true_eq] at *
  exact le_trans h1 h2

/-- The counter comparison is total. -/
theorem ibuf_counter_le_total (a b : ibuf_rec_t) :
    ibuf_counter_le a b || ibuf_counter_le b a := by
  simp only [ibuf_counter_le, Bool.or_eq_true, decide_eq_true_eq]
  exact Nat.le_total a.counter b.counter

/-- Entries returned for a page are weakly sorted on the counter. -/
theorem ibuf_entries_for_page_sorted_le (buf : List ibuf_rec_t)
    (pid : page_id_t) :
    (ibuf_entries_for_page buf pid).Pairwise
      (fun a b => a.counter ≤ b.counter) := by
  have h := @List.sorted_mergeSort ibuf_rec_t ibuf_counter_le
    ibuf_counter_le_trans ibuf_counter_le_total
    (buf.filter (fun r => decide (r.page = pid)))
  refine h.imp ?_
  intro a b hab
  simpa [ibuf_counter_le] using hab

/-- Entries returned for a page are a permutation of the page's entries
in the buffer. -/
theorem ibuf_entries_for_page_perm (buf : List ibuf_rec_t)
    (pid : page_id_t) :
    (ibuf_entries_for_page buf pid).Perm
      (buf.filter (fun r => decide (r.page = pid))) :=
  List.mergeSort_perm _ _

/-- With pairwise-distinct counters, the entries returned for a page are
strictly sorted on the counter. -/
theorem ibuf_entries_for_page_sorted_lt (buf : List ibuf_rec_t)
    (pid : page_id_t)
    (hd : (buf.filter (fun r => decide (r.page = pid))).Pairwise
      (fun a b => a.counter ≠ b.counter)) :
    (ibuf_entries_for_page buf pid).Pairwise
      (fun a b => a.counter < b.counter) := by
  have hne : (ibuf_entries_for_page buf pid).Pairwise
      (fun a b => a.counter ≠ b.counter) :=
    ((ibuf_entries_for_page_perm buf pid).pairwise_iff
      (fun {a b} h => Ne.symm h)).2 hd
  have hle := ibuf_entries_for_page_sorted_le buf pid
  refine (hle.and hne).imp ?_
  intro a b hab
  exact lt_of_le_of_ne hab.1 hab.2

/-- Claim C2: for a page whose buffered entries carry pairwise-distinct
ordering counters, `ibuf_merge_or_delete_for_page` with a resident page
applies exactly the page's buffered entries, in ascending counter order
(the original buffering order), independently of the physical insertion
order in the buffer (any permutation of the buffer yields the same
application sequence), and removes every applied entry from the
buffer's own index. -/
theorem ibuf_merge_applies_in_counter_order (buf buf2 : List ibuf_rec_t)
    (pid : page_id_t) (pg : page_contents_t)
    (hperm : buf.Perm buf2)
    (hd : (buf.filter (fun r => decide (r.page = pid))).Pairwise
      (fun a b => a.counter ≠ b.counter)) :
    (ibuf_entries_for_page buf pid).Pairwise
        (fun a b => a.counter < b.counter) ∧
      (ibuf_entries_for_page buf pid).Perm
        (buf.filter (fun r => decide (r.page = pid))) ∧
      ibuf_entries_for_page buf2 pid = ibuf_entries_for_page buf pid ∧
      (ibuf_merge_or_delete_for_page (some pg) pid buf).1 =
        some ((ibuf_entries_for_page buf pid).foldl ibuf_apply_rec pg) ∧
      (ibuf_merge_or_delete_for_page (some pg) pid buf).2.filter
          (fun r => decide (r.page = pid)) = [] := by
  have hfperm : (buf.filter (fun r => decide (r.page = pid))).Perm
      (buf2.filter (fun r => decide (r.page = pid))) := hperm.filter _
  have hd2 : (buf2.filter (fun r => decide (r.page = pid))).Pairwise
      (fun a b => a.counter ≠ b.counter) :=
    (hfperm.pairwise_iff (fun {a b} h => Ne.symm h)).1 hd
  refine ⟨ibuf_entries_for_page_sorted_lt buf pid hd,
    ibuf_entries_for_page_perm buf pid, ?_, rfl,
    filter_page_of_filter_not_page buf pid⟩
  have hp : (ibuf_entries_for_page buf2 pid).Perm
      (ibuf_entries_for_page buf pid) :=
    ((ibuf_entries_for_page_perm buf2 pid).trans hfperm.symm).trans
      (ibuf_entries_for_page_perm buf pid).symm
  haveI : IsAntisymm ibuf_rec_t (fun a b => a.counter < b.counter) :=
    ⟨fun a b h1 h2 => absurd h1 (Nat.lt_asymm h2)⟩
  exact List.eq_of_perm_of_sorted hp
    (ibuf_entries_for_page_sorted_lt buf2 pid hd2)
    (ibuf_entries_for_page_sorted_lt buf pid hd)

/-- Witness for C2: entries with counters 3, 1, 2 inserted in that
physical order, compared against a genuine reordering of the buffer. -/
theorem ibuf_merge_applies_in_counter_order_witness :
    ([⟨⟨7, 42⟩, 10, .IBUF_OP_INSERT, 3, 5⟩,
        ⟨⟨7, 42⟩, 11, .IBUF_OP_INSERT, 1, 5⟩,
        ⟨⟨7, 42⟩, 12, .IBUF_OP_DELETE_MARK, 2, 5⟩] : List ibuf_rec_t).Perm
      [⟨⟨7, 42⟩, 11, .IBUF_OP_INSERT, 1, 5⟩,
        ⟨⟨7, 42⟩, 12, .IBUF_OP_DELETE_MARK, 2, 5⟩,
        ⟨⟨7, 42⟩, 10, .IBUF_OP_INSERT, 3, 5⟩] ∧
    (([⟨⟨7, 42⟩, 10, .IBUF_OP_INSERT, 3, 5⟩,
        ⟨⟨7, 42⟩, 11, .IBUF_OP_INSERT, 1, 5⟩,
        ⟨⟨7, 42⟩, 12, .IBUF_OP_DELETE_MARK, 2, 5⟩] :
          List ibuf_rec_t).filter
        (fun r => decide (r.page = ⟨7, 42⟩))).Pairwise
      (fun a b => a.counter ≠ b.counter) ∧
    ((ibuf_entries_for_page
        [⟨⟨7, 42⟩, 10, .IBUF_OP_INSERT, 3, 5⟩,
          ⟨⟨7, 42⟩, 11, .IBUF_OP_INSERT, 1, 5⟩,
          ⟨⟨7, 42⟩, 12, .IBUF_OP_DELETE_MARK, 2, 5⟩] ⟨7, 42⟩).Pairwise
        (fun a b => a.counter < b.counter) ∧
      (ibuf_entries_for_page
          [⟨⟨7, 42⟩, 10, .IBUF_OP_INSERT, 3, 5⟩,
            ⟨⟨7, 42⟩, 11, .IBUF_OP_INSERT, 1, 5⟩,
            ⟨⟨7, 42⟩, 12, .IBUF_OP_DELETE_MARK, 2, 5⟩] ⟨7, 42⟩).Perm
        (([⟨⟨7, 42⟩, 10, .IBUF_OP_INSERT, 3, 5⟩,
            ⟨⟨7, 42⟩, 11, .IBUF_OP_INSERT, 1, 5⟩,
            ⟨⟨7, 42⟩, 12, .IBUF_OP_DELETE_MARK, 2, 5⟩] :
              List ibuf_rec_t).filter
          (fun r => decide (r.page = ⟨7, 42⟩))) ∧
      ibuf_entries_for_page
          [⟨⟨7, 42⟩, 11, .IBUF_OP_INSERT, 1, 5⟩,
            ⟨⟨7, 42⟩, 12, .IBUF_OP_DELETE_MARK, 2, 5⟩,
            ⟨⟨7, 42⟩, 10, .IBUF_OP_INSERT, 3, 5⟩] ⟨7, 42⟩ =
        ibuf_entries_for_page
          [⟨⟨7, 42⟩, 10, .IBUF_OP_INSERT, 3, 5⟩,
            ⟨⟨7, 42⟩, 11, .IBUF_OP_INSERT, 1, 5⟩,
            ⟨⟨7, 42⟩, 12, .IBUF_OP_DELETE_MARK, 2, 5⟩] ⟨7, 42⟩ ∧
      (ibuf_merge_or_delete_for_page (some [])
          ⟨7, 42⟩
          [⟨⟨7, 42⟩, 10, .IBUF_OP_INSERT, 3, 5⟩,
            ⟨⟨7, 42⟩, 11, .IBUF_OP_INSERT, 1, 5⟩,
            ⟨⟨7, 42⟩, 12, .IBUF_OP_DELETE_MARK, 2, 5⟩]).1 =
        some ((ibuf_entries_for_page
            [⟨⟨7, 42⟩, 10, .IBUF_OP_INSERT, 3, 5⟩,
              ⟨⟨7, 42⟩, 11, .IBUF_OP_INSERT, 1, 5⟩,
              ⟨⟨7, 42⟩, 12, .IBUF_OP_DELETE_MARK, 2, 5⟩] ⟨7, 42⟩).foldl
          ibuf_apply_rec []) ∧
      (ibuf_merge_or_delete_for_page (some [])
          ⟨7, 42⟩
          [⟨⟨7, 42⟩, 10, .IBUF_OP_INSERT, 3, 5⟩,
            ⟨⟨7, 42⟩, 11, .IBUF_OP_INSERT, 1, 5⟩,
            ⟨⟨7, 42⟩, 12, .IBUF_OP_DELETE_MARK, 2, 5⟩]).2.filter
          (fun r => decide (r.page = ⟨7, 42⟩)) = []) :=
  ⟨by decide, by decide,
    ibuf_merge_applies_in_counter_order _ _ ⟨7, 42⟩ [] (by decide) (by decide)⟩

/-- Claim C3: calling `ibuf_merge_or_delete_for_page` twice in a row on
the same resident page with no intervening write yields the same final
page contents and buffer as calling it once, and the second call finds
zero buffered entries for the page. -/
theorem ibuf_merge_or_delete_idempotent (pg : page_contents_t)
    (pid : page_id_t) (buf : List ibuf_rec_t) :
    ibuf_merge_or_delete_for_page
        (ibuf_merge_or_delete_for_page (some pg) pid buf).1 pid
        (ibuf_merge_or_delete_for_page (some pg) pid buf).2 =
      ibuf_merge_or_delete_for_page (some pg) pid buf ∧
    ibuf_entries_for_page
        (ibuf_merge_or_delete_for_page (some pg) pid buf).2 pid = [] := by
  have e1 : ibuf_entries_for_page
      (buf.filter fun r => decide (¬ r.page = pid)) pid = [] :=
    ibuf_entries_for_page_of_purged buf pid
  constructor
  · simp only [ibuf_merge_or_delete_for_page]
    rw [e1, filter_not_page_idem, List.foldl_nil]
  · exact e1

/-- Pages a scope does not touch keep both their free space and their
stored code. -/
theorem apply_mtr_scope_untouched (S : List bitmap_write_t)
    (s : bitmap_state_t) (p : page_id_t) (hp : p ∉ scope_targets S) :
    (apply_mtr_scope s S).free_bits p = s.free_bits p ∧
      (apply_mtr_scope s S).free_space p = s.free_space p := by
  induction S generalizing s with
  | nil => exact ⟨rfl, rfl⟩
  | cons w S ih =>
      have hp1 : p ≠ w.target := by
        intro h
        exact hp (by simp [scope_targets, h])
      have hp2 : p ∉ scope_targets S := by
        intro h
        exact hp (by simp [scope_targets] at h ⊢; exact Or.inr h)
      have hw : (apply_bitmap_write s w).free_bits p = s.free_bits p ∧
          (apply_bitmap_write s w).free_space p = s.free_space p := by
        cases w with
        | set_bits q c =>
            simp [apply_bitmap_write, bitmap_write_t.target] at hp1 ⊢
            simp [hp1]
        | set_free q f =>
            simp [apply_bitmap_write, bitmap_write_t.target] at hp1 ⊢
            simp [hp1]
      have := ih (apply_bitmap_write s w) hp2
      simpa [apply_mtr_scope, List.foldl_cons, hw.1, hw.2]
        using this

/-- A legal committed scope preserves the never-overstate invariant. -/
theorem legal_scope_preserves_inv (s : bitmap_state_t)
    (S : List bitmap_write_t) (hinv : bitmap_inv s)
    (hleg : legal_scope s S) : bitmap_inv (apply_mtr_scope s S) := by
  intro p
  by_cases hp : p ∈ scope_targets S
  · rcases hleg p hp with h | ⟨h1, h2⟩
    · exact h
    · calc (apply_mtr_scope s S).free_bits p ≤ s.free_bits p := h1
        _ ≤ s.free_space p := hinv p
        _ = (apply_mtr_scope s S).free_space p := h2.symm
  · obtain ⟨e1, e2⟩ := apply_mtr_scope_untouched S s p hp
    rw [e1, e2]
    exact hinv p

/-- Resetting a page's free bits is legal in any scope state (it only
lowers the code and leaves the page itself untouched). -/
theorem ibuf_reset_free_bits_low_legal (s : bitmap_state_t)
    (p : page_id_t) : legal_scope s (ibuf_reset_free_bits_low p) := by
  intro q hq
  have hq' : q = p := by
    simpa [ibuf_reset_free_bits_low, scope_targets,
      bitmap_write_t.target] using hq
  subst hq'
  right
  constructor
  · simp [ibuf_reset_free_bits_low, apply_mtr_scope, apply_bitmap_write]
  · simp [ibuf_reset_free_bits_low, apply_mtr_scope, apply_bitmap_write]

/-- Updating the free bits for two pages to reflect the present state,
inside the very scope that updated the pages, is legal: the stored code
matches the new true free space. -/
theorem ibuf_update_free_bits_for_two_pages_low_legal
    (s : bitmap_state_t) (p1 p2 : page_id_t) (f1 f2 : Nat) :
    legal_scope s (ibuf_update_free_bits_for_two_pages_low p1 p2 f1 f2) := by
  intro q hq
  left
  have hq' : q = p1 ∨ q = p2 := by
    have := hq
    simp [ibuf_update_free_bits_for_two_pages_low, scope_targets,
      bitmap_write_t.target] at this
    tauto
  by_cases h2 : q = p2
  · simp [ibuf_update_free_bits_for_two_pages_low, apply_mtr_scope,
      apply_bitmap_write, h2]
  · rcases hq' with h1 | h1
    · simp [ibuf_update_free_bits_for_two_pages_low, apply_mtr_scope,
        apply_bitmap_write, h1, h2]
    · exact absurd h1 h2

/-- Claim C1: for every tracked page and every sequence of bitmap
updates legal under the free-bits rule (codes lowered only in a scope
committed no later than the space-consuming scope, raised only in the
very same committed scope that created the space), at every durable
point — the state after any prefix of the committed scopes, which is
exactly what a crash and recovery at a commit boundary replays — the
stored free-space code of every page is at most that page's true free
space. -/
theorem ibuf_free_bits_never_exceed (s0 : bitmap_state_t)
    (tr : List (List bitmap_write_t)) (h0 : bitmap_inv s0)
    (hl : legal_trace s0 tr) (n : Nat) :
    bitmap_inv (apply_trace s0 (tr.take n)) := by
  induction tr generalizing s0 n with
  | nil => simpa [apply_trace] using h0
  | cons S tr ih =>
      cases n with
      | zero => simpa [apply_trace] using h0
      | succ n =>
          have h1 : bitmap_inv (apply_mtr_scope s0 S) :=
            legal_scope_preserves_inv s0 S h0 hl.1
          simpa [apply_trace, List.take_succ_cons, List.foldl_cons]
            using ih (apply_mtr_scope s0 S) h1 hl.2 n

/-- Witness data for C1: a durable state with eight free bytes and a
full promise everywhere. -/
def bitmap_demo_state : bitmap_state_t :=
  ⟨fun _ => 8, fun _ => 8⟩

/-- Witness data for C1: reset one page's code, then consume space on
that page and one more while re-deriving both codes in the same
scope. -/
def bitmap_demo_trace : List (List bitmap_write_t) :=
  [ibuf_reset_free_bits_low ⟨7, 42⟩,
    ibuf_update_free_bits_for_two_pages_low ⟨7, 42⟩ ⟨7, 43⟩ 5 6]

/-- Witness for C1 on the demonstration trace, checked at the durable
point between the two commits. -/
theorem ibuf_free_bits_never_exceed_witness :
    bitmap_inv bitmap_demo_state ∧
      legal_trace bitmap_demo_state bitmap_demo_trace ∧
      bitmap_inv (apply_trace bitmap_demo_state
        (bitmap_demo_trace.take 1)) :=
  ⟨fun _ => le_rfl,
    ⟨ibuf_reset_free_bits_low_legal bitmap_demo_state ⟨7, 42⟩,
      ibuf_update_free_bits_for_two_pages_low_legal _ ⟨7, 42⟩ ⟨7, 43⟩ 5 6,
      trivial⟩,
    ibuf_free_bits_never_exceed bitmap_demo_state bitmap_demo_trace
      (fun _ => le_rfl)
      ⟨ibuf_reset_free_bits_low_legal bitmap_demo_state ⟨7, 42⟩,
        ibuf_update_free_bits_for_two_pages_low_legal _ ⟨7, 42⟩ ⟨7, 43⟩ 5 6,
        trivial⟩ 1⟩

/-- One core step preserves the `empty` correspondence. -/
theorem core_step_preserves_empty_inv (t : ibuf_core_state_t)
    (op : core_op_t) (h : ibuf_empty_inv t) :
    ibuf_empty_inv (core_step t op) := by
  cases op with
  | latch_root => simpa [core_step, ibuf_empty_inv] using h
  | unlatch_root => simpa [core_step, ibuf_empty_inv] using h
  | insert_entry r =>
      by_cases hl : t.root_latched <;>
        simp [core_step, ibuf_empty_inv, hl] at h ⊢ <;> exact h
  | merge_page pid =>
      by_cases hl : t.root_latched <;>
        simp [core_step, ibuf_empty_inv, hl] at h ⊢ <;> exact h
  | discard_space sp =>
      by_cases hl : t.root_latched <;>
        simp [core_step, ibuf_empty_inv, hl] at h ⊢ <;> exact h

/-- Claim C8: the control block's `empty` field is true iff no buffered
entries exist in the buffer's own index — the correspondence holds
after any sequence of core operations that starts from a state
satisfying it — and `empty` is mutated only while the root-page latch
of the buffer's index is held: a step taken without the latch leaves
`empty` unchanged. -/
theorem ibuf_empty_iff_no_entries (s : ibuf_core_state_t)
    (ops : List core_op_t) (h : ibuf_empty_inv s) :
    ibuf_empty_inv (ops.foldl core_step s) ∧
      (∀ t : ibuf_core_state_t, ∀ op : core_op_t,
        t.root_latched = false →
          (core_step t op).ibuf.empty = t.ibuf.empty) := by
  constructor
  · induction ops generalizing s with
    | nil => simpa using h
    | cons op rest ih =>
        simpa [List.foldl_cons] using
          ih (core_step s op) (core_step_preserves_empty_inv s op h)
  · intro t op hl
    cases op <;> simp [core_step, hl]

/-- Witness for C8: start from a consistent empty buffer, latch the
root, insert an entry, unlatch. -/
theorem ibuf_empty_iff_no_entries_witness :
    ibuf_empty_inv ⟨⟨0, 2, true, 0, 1⟩, [], false⟩ ∧
      (ibuf_empty_inv
          (([.latch_root,
              .insert_entry ⟨⟨7, 42⟩, 10, .IBUF_OP_INSERT, 1, 5⟩,
              .unlatch_root] : List core_op_t).foldl core_step
            ⟨⟨0, 2, true, 0, 1⟩, [], false⟩) ∧
        (∀ t : ibuf_core_state_t, ∀ op : core_op_t,
          t.root_latched = false →
            (core_step t op).ibuf.empty = t.ibuf.empty)) :=
  ⟨rfl,
    ibuf_empty_iff_no_entries ⟨⟨0, 2, true, 0, 1⟩, [], false⟩
      [.latch_root,
        .insert_entry ⟨⟨7, 42⟩, 10, .IBUF_OP_INSERT, 1, 5⟩,
        .unlatch_root] rfl⟩

/-- Claim C9: whenever the change buffer is empty (no buffered entries
exist, equivalently `ibuf.empty` under the control-block invariant),
`ibuf_contract` returns 0; otherwise the entries it merges through the
page it causes to be read are exactly the entries it removes from the
buffer, and the returned byte count is a lower bound for their combined
size. -/
theorem ibuf_contract_zero_or_estimate (s : ibuf_core_state_t)
    (h : ibuf_empty_inv s) :
    (s.entries = [] → (ibuf_contract s).1 = 0) ∧
      (s.entries ≠ [] →
        (ibuf_contract_merged s ++ (ibuf_contract s).2.entries).Perm
            s.entries ∧
          (ibuf_contract s).1 ≤
            ((ibuf_contract_merged s).map ibuf_rec_size).sum) := by
  constructor
  · intro he
    have : s.ibuf.empty = true := by
      rw [h, he]
      rfl
    simp [ibuf_contract, this]
  · intro he
    match hs : s.entries with
    | [] => exact absurd hs he
    | r :: rest =>
        have hemp : s.ibuf.empty = false := by
          rw [h, hs]
          rfl
        have hfilter :
            s.entries.filter (fun e => decide (¬ e.page = r.page)) =
              s.entries.filter (fun e => !decide (e.page = r.page)) := by
          apply List.filter_congr
          intro e _
          simp [decide_not]
        constructor
        · simp only [ibuf_contract, ibuf_contract_merged, hemp, hs,
            Bool.false_eq_true, if_false]
          rw [← hs, hfilter]
          exact List.filter_append_perm _ s.entries
        · simp only [ibuf_contract, ibuf_contract_merged, hemp, hs,
            Bool.false_eq_true, if_false]
          rw [← hs]

/-- Witness for C9: a two-page buffer where contraction merges the first
page's entries. -/
theorem ibuf_contract_zero_or_estimate_witness :
    ibuf_empty_inv
        ⟨⟨1, 2, false, 0, 1⟩,
          [⟨⟨7, 42⟩, 10, .IBUF_OP_INSERT, 1, 5⟩,
            ⟨⟨7, 43⟩, 11, .IBUF_OP_DELETE, 2, 7⟩], true⟩ ∧
      ((⟨⟨1, 2, false, 0, 1⟩,
          [⟨⟨7, 42⟩, 10, .IBUF_OP_INSERT, 1, 5⟩,
            ⟨⟨7, 43⟩, 11, .IBUF_OP_DELETE, 2, 7⟩], true⟩ :
            ibuf_core_state_t).entries = [] →
        (ibuf_contract
          ⟨⟨1, 2, false, 0, 1⟩,
            [⟨⟨7, 42⟩, 10, .IBUF_OP_INSERT, 1, 5⟩,
              ⟨⟨7, 43⟩, 11, .IBUF_OP_DELETE, 2, 7⟩], true⟩).1 = 0) ∧
      ((⟨⟨1, 2, false, 0, 1⟩,
          [⟨⟨7, 42⟩, 10, .IBUF_OP_INSERT, 1, 5⟩,
            ⟨⟨7, 43⟩, 11, .IBUF_OP_DELETE, 2, 7⟩], true⟩ :
            ibuf_core_state_t).entries ≠ [] →
        (ibuf_contract_merged
              ⟨⟨1, 2, false, 0, 1⟩,
                [⟨⟨7, 42⟩, 10, .IBUF_OP_INSERT, 1, 5⟩,
                  ⟨⟨7, 43⟩, 11, .IBUF_OP_DELETE, 2, 7⟩], true⟩ ++
            (ibuf_contract
              ⟨⟨1, 2, false, 0, 1⟩,
                [⟨⟨7, 42⟩, 10, .IBUF_OP_INSERT, 1, 5⟩,
                  ⟨⟨7, 43⟩, 11, .IBUF_OP_DELETE, 2, 7⟩], true⟩).2.entries).Perm
            (⟨⟨1, 2, false, 0, 1⟩,
              [⟨⟨7, 42⟩, 10, .IBUF_OP_INSERT, 1, 5⟩,
                ⟨⟨7, 43⟩, 11, .IBUF_OP_DELETE, 2, 7⟩], true⟩ :
                  ibuf_core_state_t).entries ∧
          (ibuf_contract
              ⟨⟨1, 2, false, 0, 1⟩,
                [⟨⟨7, 42⟩, 10, .IBUF_OP_INSERT, 1, 5⟩,
                  ⟨⟨7, 43⟩, 11, .IBUF_OP_DELETE, 2, 7⟩], true⟩).1 ≤
            ((ibuf_contract_merged
              ⟨⟨1, 2, false, 0, 1⟩,
                [⟨⟨7, 42⟩, 10, .IBUF_OP_INSERT, 1, 5⟩,
                  ⟨⟨7, 43⟩, 11, .IBUF_OP_DELETE, 2, 7⟩], true⟩).map
              ibuf_rec_size).sum) :=
  ⟨rfl,
    ibuf_contract_zero_or_estimate
      ⟨⟨1, 2, false, 0, 1⟩,
        [⟨⟨7, 42⟩, 10, .IBUF_OP_INSERT, 1, 5⟩,
          ⟨⟨7, 43⟩, 11, .IBUF_OP_DELETE, 2, 7⟩], true⟩ rfl⟩

end Ibuf
